import Mathlib

/-!
Verification development for the `dpd_client` library (Health Canada DPD
API client).  The definitions below are a shallow embedding of the request
execution layer of the repository:

* `src/dpd_client/params.py`  — parameter builders (`base_params`,
  `params_with_id_lang`, `params_with_id_lang_active`, `params_drugproduct`,
  `params_activeingredient`, …);
* `src/dpd_client/http.py`    — retry classification
  (`_is_retryable_exception`), the blocking executor (`HTTPClient._request`,
  `HTTPClient.get_json`), the non-blocking executor
  (`AsyncHTTPClient._request`, `AsyncHTTPClient.get_json`), and the cache
  key derivation (`_cache_key`);
* `src/dpd_client/client.py`  — the response normalizer (`_normalize_list`).

Modelling conventions: Python `None` becomes `Option.none`; Python dicts
whose insertion order is observable become association lists; wall-clock
instants and durations are modelled as integers (the code only compares and
adds them); the network is modelled as a list of per-attempt outcomes
(a response, or a transport-layer exception).  Evaluation order that the
spec talks about (key computation versus the TTL check, sleeps between
attempts) is made observable through explicit event traces.
-/

namespace DPD

/-- Decoded JSON values, as produced by `resp.json()` in the code:
`None`, `bool`, numbers, strings, lists and dicts. -/
inductive JVal where
  | null : JVal
  | bool (b : Bool) : JVal
  | num (n : Int) : JVal
  | str (s : String) : JVal
  | arr (elems : List JVal) : JVal
  | obj (fields : List (String × JVal)) : JVal

/-- Scalar query-parameter values (the builders only ever store strings and
integers in the params dict). -/
inductive PVal where
  | int (n : Int) : PVal
  | str (s : String) : PVal
deriving Repr, DecidableEq

/-- Rendering of a parameter value exactly as the f-string
`f"{k}={params[k]}"` in `_cache_key` renders it. -/
def PVal.render : PVal → String
  | .int n => toString n
  | .str s => s

/-- Query parameters: a Python dict with observable insertion order. -/
abbrev Params := List (String × PVal)

/-- Python truthiness of an optional integer: `None` and `0` are falsy. -/
def truthyInt : Option Int → Bool
  | none => false
  | some n => n != 0

/-- Python truthiness of an optional string: `None` and `""` are falsy. -/
def truthyStr : Option String → Bool
  | none => false
  | some s => s != ""

/-- Python truthiness of an optional bool (`active` flag): only
`Some true` is truthy. -/
def truthyBool : Option Bool → Bool
  | some b => b
  | none => false

/-- Python `lang or default_lang` on an optional string. -/
def pyOrStr (a : Option String) (b : String) : String :=
  match a with
  | none => b
  | some s => if s = "" then b else s

/-- The typed errors of `src/dpd_client/errors.py`: `DPDInvalidParam`,
`DPDHTTPError` (status code, body text) and `DPDDecodeError`.  The url
field of `DPDHTTPError` is determined by the call arguments and is not
modelled separately. -/
inductive DPDErr where
  | invalidParam : DPDErr
  | httpError (status : Int) (body : String) : DPDErr
  | decodeError : DPDErr
deriving Repr, DecidableEq

/-- Embedding of `base_params` (`params.py`): `type=json` plus the
effective language `lang or default_lang`. -/
def base_params (default_lang : String) (lang : Option String) : Params :=
  [("type", PVal.str ("json")), ("lang", PVal.str (pyOrStr lang default_lang))]

/-- Embedding of `params_with_id_lang` (`params.py`). -/
def params_with_id_lang (default_lang : String) (id : Int) (lang : Option String) : Params :=
  base_params default_lang lang ++ [("id", PVal.int id)]

/-- Embedding of `params_with_id_lang_active` (`params.py`): adds
`active=yes` exactly when the flag is truthy. -/
def params_with_id_lang_active (default_lang : String) (id : Int)
    (active : Option Bool) (lang : Option String) : Params :=
  params_with_id_lang default_lang id lang ++
    (if truthyBool active then [("active", PVal.str ("yes"))] else [])

/-- Embedding of `params_packaging` (`params.py`): no lang parameter. -/
def params_packaging (id : Int) : Params :=
  [("id", PVal.int id), ("type", PVal.str ("json"))]

/-- Embedding of `params_pharmaceuticalstd` (`params.py`). -/
def params_pharmaceuticalstd (id : Int) : Params :=
  [("id", PVal.int id), ("type", PVal.str ("json"))]

/-- Embedding of `params_drugproduct` (`params.py`).  The validation is
`if not any([id, din, brandname, status])`, i.e. Python truthiness of each
filter, and a filter is added to the params iff it `is not None`. -/
def params_drugproduct (default_lang : String) (id : Option Int)
    (din brandname status lang : Option String) : Except DPDErr Params :=
  if !(truthyInt id || truthyStr din || truthyStr brandname || truthyStr status) then
    Except.error DPDErr.invalidParam
  else
    Except.ok (base_params default_lang lang ++
      (match id with | some v => [("id", PVal.int v)] | none => []) ++
      (match din with | some v => [("din", PVal.str v)] | none => []) ++
      (match brandname with | some v => [("brandname", PVal.str v)] | none => []) ++
      (match status with | some v => [("status", PVal.str v)] | none => []))

/-- Embedding of `params_activeingredient` (`params.py`).  The validation
here is an explicit `is None` check, not truthiness. -/
def params_activeingredient (default_lang : String) (id : Option Int)
    (ingredientname lang : Option String) : Except DPDErr Params :=
  if id = none ∧ ingredientname = none then
    Except.error DPDErr.invalidParam
  else
    Except.ok (base_params default_lang lang ++
      (match id with | some v => [("id", PVal.int v)] | none => []) ++
      (match ingredientname with | some v => [("ingredientname", PVal.str v)] | none => []))

/-- Predicate `isinstance(x, Dict)` on a JSON value. -/
def JVal.isDict : JVal → Bool
  | .obj _ => true
  | _ => false

/-- Embedding of `_normalize_list` (`client.py`): `None` to the empty list,
a list filtered to its dict elements, a single dict to a singleton list,
anything else to the empty list. -/
def normalize_list : JVal → List JVal
  | .null => []
  | .arr xs => xs.filter JVal.isDict
  | .obj fs => [JVal.obj fs]
  | _ => []

/-- Lookup in a Python dict modelled as an association list (first match;
keys of the dicts we build are unique). -/
def dictGet {α : Type} (m : List (String × α)) (k : String) : Option α :=
  (m.find? (fun p => p.1 == k)).map Prod.snd

/-- Lexicographic comparison of character lists by code point, the order
Python `sorted` uses on strings. -/
def charListLe : List Char → List Char → Bool
  | [], _ => true
  | _ :: _, [] => false
  | a :: as, b :: bs =>
    if a.toNat < b.toNat then true
    else if b.toNat < a.toNat then false
    else charListLe as bs

/-- String comparison by code points, as Python `sorted` orders keys. -/
def strLeB (a b : String) : Bool :=
  charListLe a.data b.data

/-- The sorting relation on parameter keys, as a proposition. -/
def strLeRel (a b : String) : Prop :=
  strLeB a b = true

instance strLeRel.decidable : DecidableRel strLeRel :=
  fun a b => inferInstanceAs (Decidable (strLeB a b = true))

/-- Embedding of `_cache_key` (`http.py`): the url alone when the params
mapping is falsy, otherwise the url, a question mark, and the
`key=value` pairs sorted by key name and joined with ampersands. -/
def cache_key (url : String) (params : Params) : String :=
  if params.isEmpty then url
  else
    let ks := (params.map Prod.fst).insertionSort strLeRel
    let parts := ks.map (fun k =>
      k ++ "=" ++ (match dictGet params k with
        | some v => v.render
        | none => ""))
    url ++ "?" ++ String.intercalate ("&") parts

/-- Transport-layer exceptions raised by `self._client.get(...)`.  The
first four are the members of the `Retryable` tuple in `http.py`
(`httpx.ConnectError`, `httpx.ReadError`, `httpx.RemoteProtocolError`,
`httpx.PoolTimeout`); `other` stands for any further `httpx.HTTPError`
subclass (for example `httpx.ReadTimeout`), carrying its `str(exc)`
rendering. -/
inductive TransportExc where
  | connectError : TransportExc
  | readError : TransportExc
  | remoteProtocolError : TransportExc
  | poolTimeout : TransportExc
  | other (desc : String) : TransportExc
deriving Repr, DecidableEq

/-- String rendering `str(exc)` of a transport exception, used for the
body of the sentinel `DPDHTTPError(-1, str(exc))`. -/
def TransportExc.render : TransportExc → String
  | .connectError => "ConnectError"
  | .readError => "ReadError"
  | .remoteProtocolError => "RemoteProtocolError"
  | .poolTimeout => "PoolTimeout"
  | .other desc => desc

/-- One HTTP response: its status code, its body text (`resp.text`) and
the result of `resp.json()` (`none` models a `json.JSONDecodeError`). -/
structure Resp where
  status : Nat
  body : String
  json : Option JVal

/-- The outcome the network produces for one attempt: either a response
or a transport-layer exception. -/
inductive Outcome where
  | resp (r : Resp) : Outcome
  | exc (e : TransportExc) : Outcome

/-- Exceptions as seen by the retry machinery: a transport exception, or
the `httpx.HTTPStatusError` produced by `resp.raise_for_status()`
(carrying the response status and body text). -/
inductive HTTPExc where
  | transport (e : TransportExc) : HTTPExc
  | statusError (status : Nat) (body : String) : HTTPExc
deriving Repr, DecidableEq

/-- Embedding of `_is_retryable_exception` (`http.py`): members of the
`Retryable` tuple, or an `HTTPStatusError` whose status is 429 or 5xx. -/
def is_retryable_exception : HTTPExc → Bool
  | .transport .connectError => true
  | .transport .readError => true
  | .transport .remoteProtocolError => true
  | .transport .poolTimeout => true
  | .transport (.other _) => false
  | .statusError status _ => status == 429 || (500 ≤ status && status < 600)

/-- Whether an exception is caught by the async retry loop, i.e. is a
member of the `except (...)` tuple in `AsyncHTTPClient._request`:
the four retryable transport classes plus every `HTTPStatusError`. -/
def asyncCatches : HTTPExc → Bool
  | .transport (.other _) => false
  | .transport _ => true
  | .statusError _ _ => true

/-- Events observable from outside one `_request` run: a network attempt,
or a backoff wait. -/
inductive Ev where
  | attempt : Ev
  | sleep : Ev
deriving Repr, DecidableEq

/-- One attempt of either `_do` (sync) or the async loop body: perform the
GET and raise `HTTPStatusError` when the status is 429 or 5xx (both
variants guard `raise_for_status` with exactly this test). -/
def attemptResult : Outcome → Except HTTPExc Resp
  | .resp r =>
      if r.status == 429 || (500 ≤ r.status && r.status < 600) then
        Except.error (HTTPExc.statusError r.status r.body)
      else Except.ok r
  | .exc e => Except.error (HTTPExc.transport e)

/-- Errors a call can end with: a typed `DPDError`, a raw `httpx`
exception escaping unwrapped, or a failed `assert` statement.  The
blocking path only ever produces `dpd`; the async path can produce all
three. -/
inductive CallErr where
  | dpd (e : DPDErr) : CallErr
  | raw (e : HTTPExc) : CallErr
  | assertFailure : CallErr
deriving Repr, DecidableEq

/-- Mapping of the final exception to a `DPDHTTPError`, shared verbatim by
the two executors: a status error keeps its status and body, any other
`httpx.HTTPError` becomes the sentinel status `-1` with `str(exc)`. -/
def excToDPDError : HTTPExc → DPDErr
  | .statusError status body => DPDErr.httpError (Int.ofNat status) body
  | .transport e => DPDErr.httpError (-1) e.render

/-- The tenacity-driven retry loop inside `HTTPClient._request`
(`stop=stop_after_attempt(max_retries)`, `retry=retry_if_exception(
_is_retryable_exception)`, `reraise=True`).  `attemptNum` is the 1-based
number of the attempt about to run.  Tenacity checks the stop condition
only after a failed attempt whose exception the predicate accepts, and
sleeps only when it decides to run another attempt.  The result is `none`
when the supplied outcome trace is too short to determine the run. -/
def syncRequestGo (maxRetries : Nat) : Nat → List Outcome →
    List Ev × Option (Except HTTPExc Resp)
  | _, [] => ([], none)
  | attemptNum, o :: rest =>
    match attemptResult o with
    | Except.ok r => ([Ev.attempt], some (Except.ok r))
    | Except.error e =>
      if is_retryable_exception e then
        if maxRetries ≤ attemptNum then ([Ev.attempt], some (Except.error e))
        else
          let next := syncRequestGo maxRetries (attemptNum + 1) rest
          (Ev.attempt :: Ev.sleep :: next.1, next.2)
      else ([Ev.attempt], some (Except.error e))

/-- Embedding of `HTTPClient._request`: run the tenacity loop and translate
the escaping exception through the two `except` clauses
(`httpx.HTTPStatusError` keeps its status, any other `httpx.HTTPError`
becomes `DPDHTTPError(-1, str(exc))`). -/
def sync_request (maxRetries : Nat) (outcomes : List Outcome) :
    List Ev × Option (Except CallErr Resp) :=
  let run := syncRequestGo maxRetries 1 outcomes
  (run.1, run.2.map (Except.mapError (fun e => CallErr.dpd (excToDPDError e))))

/-- The manual retry loop of `AsyncHTTPClient._request`.  `attempts` is
the count of failed attempts so far (`attempts` in the code), `lastExc`
the stored `last_exc`.  The loop body runs while `attempts < max_retries`;
a caught exception increments `attempts` and sleeps before the loop
condition is re-checked, an uncaught exception propagates unwrapped.
After the loop, `assert last_exc is not None`, then the stored exception
is mapped exactly like in the blocking variant.  `asyncRequestExit` is the
code after the loop. -/
def asyncRequestExit (lastExc : Option HTTPExc) : List Ev × Option (Except CallErr Resp) :=
  match lastExc with
  | some e => ([], some (Except.error (CallErr.dpd (excToDPDError e))))
  | none => ([], some (Except.error CallErr.assertFailure))

/-- Body of the async retry loop, structurally recursive on the outcome
trace; the `attempts < maxRetries` test is the `while` condition and is
evaluated before each attempt. -/
def asyncRequestGo (maxRetries : Nat) (lastExc : Option HTTPExc) (attempts : Nat) :
    List Outcome → List Ev × Option (Except CallErr Resp)
  | [] => if attempts < maxRetries then ([], none) else asyncRequestExit lastExc
  | o :: rest =>
    if attempts < maxRetries then
      match attemptResult o with
      | Except.ok r => ([Ev.attempt], some (Except.ok r))
      | Except.error e =>
        if asyncCatches e then
          let next := asyncRequestGo maxRetries (some e) (attempts + 1) rest
          (Ev.attempt :: Ev.sleep :: next.1, next.2)
        else ([Ev.attempt], some (Except.error (CallErr.raw e)))
    else asyncRequestExit lastExc

/-- Embedding of `AsyncHTTPClient._request`: the loop starts with
`attempts = 0` and `last_exc = None`. -/
def async_request (maxRetries : Nat) (outcomes : List Outcome) :
    List Ev × Option (Except CallErr Resp) :=
  asyncRequestGo maxRetries none 0 outcomes

/-- Internal operations of one `get_json` call, in the order the code
performs them: computing the cache key, evaluating `if self._cache_ttl:`,
reading the cache, calling `self._request`, and writing the cache. -/
inductive Op where
  | computeKey : Op
  | ttlCheck : Op
  | cacheLookup : Op
  | request : Op
  | store : Op
deriving Repr, DecidableEq

/-- The cache mapping `self._cache`: key to `(expiry, payload)`. -/
abbrev Cache := List (String × Int × JVal)

/-- Insertion into a Python dict modelled on association lists: an existing
key is overwritten in place, a new key is appended. -/
def dictSet {α : Type} (m : List (String × α)) (k : String) (v : α) : List (String × α) :=
  if (m.find? (fun p => p.1 == k)).isSome then
    m.map (fun p => if p.1 == k then (k, v) else p)
  else m ++ [(k, v)]

/-- The constructor line `self._cache_ttl = float(cache_ttl) if cache_ttl
else 0.0`: an absent or zero (falsy) TTL collapses to `0`. -/
def effective_ttl : Option Int → Int
  | none => 0
  | some t => if t = 0 then 0 else t

/-- Everything observable about one `get_json` call: the ordered internal
operations, the attempt/sleep events of the request phase, the result
(`none` when the outcome trace is too short), and the cache afterwards. -/
structure GJOut where
  ops : List Op
  evs : List Ev
  result : Option (Except CallErr JVal)
  cache : Cache

/-- Embedding of `HTTPClient.get_json`: compute the cache key, then,
when the TTL is truthy, consult the cache and return a fresh hit;
otherwise run `_request`, surface 4xx statuses as `DPDHTTPError`, decode
the JSON body (failure is `DPDDecodeError`), store the decoded payload
when the TTL is truthy, and return it. -/
def sync_get_json (ttl : Int) (cache : Cache) (now : Int) (maxRetries : Nat)
    (url : String) (params : Params) (outcomes : List Outcome) : GJOut :=
  let key := cache_key url params
  let net := fun (ops : List Op) =>
    let run := sync_request maxRetries outcomes
    match run.2 with
    | none => GJOut.mk (ops ++ [Op.request]) run.1 none cache
    | some (Except.error e) =>
        GJOut.mk (ops ++ [Op.request]) run.1 (some (Except.error e)) cache
    | some (Except.ok r) =>
      if 400 ≤ r.status ∧ r.status < 500 then
        GJOut.mk (ops ++ [Op.request]) run.1
          (some (Except.error (CallErr.dpd (DPDErr.httpError (Int.ofNat r.status) r.body)))) cache
      else
        match r.json with
        | some data =>
          if ttl ≠ 0 then
            GJOut.mk (ops ++ [Op.request, Op.store]) run.1 (some (Except.ok data))
              (dictSet cache key (now + ttl, data))
          else
            GJOut.mk (ops ++ [Op.request]) run.1 (some (Except.ok data)) cache
        | none =>
          GJOut.mk (ops ++ [Op.request]) run.1
            (some (Except.error (CallErr.dpd DPDErr.decodeError))) cache
  if ttl ≠ 0 then
    match dictGet cache key with
    | some hit =>
      if hit.1 ≥ now then
        GJOut.mk [Op.computeKey, Op.ttlCheck, Op.cacheLookup] [] (some (Except.ok hit.2)) cache
      else net [Op.computeKey, Op.ttlCheck, Op.cacheLookup]
    | none => net [Op.computeKey, Op.ttlCheck, Op.cacheLookup]
  else net [Op.computeKey, Op.ttlCheck]

/-- Embedding of `AsyncHTTPClient.get_json`: textually the same steps as
the blocking variant, but the request phase is `AsyncHTTPClient._request`. -/
def async_get_json (ttl : Int) (cache : Cache) (now : Int) (maxRetries : Nat)
    (url : String) (params : Params) (outcomes : List Outcome) : GJOut :=
  let key := cache_key url params
  let net := fun (ops : List Op) =>
    let run := async_request maxRetries outcomes
    match run.2 with
    | none => GJOut.mk (ops ++ [Op.request]) run.1 none cache
    | some (Except.error e) =>
        GJOut.mk (ops ++ [Op.request]) run.1 (some (Except.error e)) cache
    | some (Except.ok r) =>
      if 400 ≤ r.status ∧ r.status < 500 then
        GJOut.mk (ops ++ [Op.request]) run.1
          (some (Except.error (CallErr.dpd (DPDErr.httpError (Int.ofNat r.status) r.body)))) cache
      else
        match r.json with
        | some data =>
          if ttl ≠ 0 then
            GJOut.mk (ops ++ [Op.request, Op.store]) run.1 (some (Except.ok data))
              (dictSet cache key (now + ttl, data))
          else
            GJOut.mk (ops ++ [Op.request]) run.1 (some (Except.ok data)) cache
        | none =>
          GJOut.mk (ops ++ [Op.request]) run.1
            (some (Except.error (CallErr.dpd DPDErr.decodeError))) cache
  if ttl ≠ 0 then
    match dictGet cache key with
    | some hit =>
      if hit.1 ≥ now then
        GJOut.mk [Op.computeKey, Op.ttlCheck, Op.cacheLookup] [] (some (Except.ok hit.2)) cache
      else net [Op.computeKey, Op.ttlCheck, Op.cacheLookup]
    | none => net [Op.computeKey, Op.ttlCheck, Op.cacheLookup]
  else net [Op.computeKey, Op.ttlCheck]

/-- The common tail of the two `get_json` bodies (everything after the
cache check): run the request phase, surface 4xx, decode, store.  Both
`sync_get_json` and `async_get_json` are definitionally this function
applied to their own request phase; the unfolding lemmas below record
that. -/
def netPost (ttl : Int) (cache : Cache) (now : Int) (key : String) (ops : List Op)
    (run : List Ev × Option (Except CallErr Resp)) : GJOut :=
  match run.2 with
  | none => GJOut.mk (ops ++ [Op.request]) run.1 none cache
  | some (Except.error e) => GJOut.mk (ops ++ [Op.request]) run.1 (some (Except.error e)) cache
  | some (Except.ok r) =>
    if 400 ≤ r.status ∧ r.status < 500 then
      GJOut.mk (ops ++ [Op.request]) run.1
        (some (Except.error (CallErr.dpd (DPDErr.httpError (Int.ofNat r.status) r.body)))) cache
    else
      match r.json with
      | some data =>
        if ttl ≠ 0 then
          GJOut.mk (ops ++ [Op.request, Op.store]) run.1 (some (Except.ok data))
            (dictSet cache key (now + ttl, data))
        else GJOut.mk (ops ++ [Op.request]) run.1 (some (Except.ok data)) cache
      | none =>
        GJOut.mk (ops ++ [Op.request]) run.1
          (some (Except.error (CallErr.dpd DPDErr.decodeError))) cache

/-- An outcome whose exception, if any, lies inside the retryable set:
no `httpx.HTTPError` outside the `Retryable` tuple is raised.  Responses
of any status are benign (status handling is identical in the two
executors). -/
def benignOutcome : Outcome → Bool
  | Outcome.exc (TransportExc.other _) => false
  | _ => true

/-- An outcome that fails its attempt retryably: a retryable transport
exception, or a response with status 429 or 5xx. -/
def failingOutcome : Outcome → Bool
  | o => match attemptResult o with
    | Except.error e => is_retryable_exception e
    | Except.ok _ => false

/-- The exception a failing outcome raises. -/
def outcomeExc : Outcome → HTTPExc
  | Outcome.exc e => HTTPExc.transport e
  | Outcome.resp r => HTTPExc.statusError r.status r.body

theorem sync_get_json_eq (ttl : Int) (cache : Cache) (now : Int) (mr : Nat)
    (url : String) (params : Params) (outcomes : List Outcome) :
    sync_get_json ttl cache now mr url params outcomes =
      (if ttl ≠ 0 then
        match dictGet cache (cache_key url params) with
        | some hit =>
          if hit.1 ≥ now then
            GJOut.mk [Op.computeKey, Op.ttlCheck, Op.cacheLookup] [] (some (Except.ok hit.2)) cache
          else netPost ttl cache now (cache_key url params)
            [Op.computeKey, Op.ttlCheck, Op.cacheLookup] (sync_request mr outcomes)
        | none => netPost ttl cache now (cache_key url params)
            [Op.computeKey, Op.ttlCheck, Op.cacheLookup] (sync_request mr outcomes)
      else netPost ttl cache now (cache_key url params)
        [Op.computeKey, Op.ttlCheck] (sync_request mr outcomes)) := by
  unfold sync_get_json netPost
  rfl

theorem async_get_json_eq (ttl : Int) (cache : Cache) (now : Int) (mr : Nat)
    (url : String) (params : Params) (outcomes : List Outcome) :
    async_get_json ttl cache now mr url params outcomes =
      (if ttl ≠ 0 then
        match dictGet cache (cache_key url params) with
        | some hit =>
          if hit.1 ≥ now then
            GJOut.mk [Op.computeKey, Op.ttlCheck, Op.cacheLookup] [] (some (Except.ok hit.2)) cache
          else netPost ttl cache now (cache_key url params)
            [Op.computeKey, Op.ttlCheck, Op.cacheLookup] (async_request mr outcomes)
        | none => netPost ttl cache now (cache_key url params)
            [Op.computeKey, Op.ttlCheck, Op.cacheLookup] (async_request mr outcomes)
      else netPost ttl cache now (cache_key url params)
        [Op.computeKey, Op.ttlCheck] (async_request mr outcomes)) := by
  unfold async_get_json netPost
  rfl

theorem charListLe_total : ∀ as bs : List Char, charListLe as bs = true ∨ charListLe bs as = true
  | [], _ => Or.inl rfl
  | _ :: _, [] => Or.inr rfl
  | a :: as, b :: bs => by
    by_cases h1 : a.toNat < b.toNat
    · left
      simp [charListLe, h1]
    · by_cases h2 : b.toNat < a.toNat
      · right
        simp [charListLe, h2]
      · rcases charListLe_total as bs with h | h
        · left
          simp [charListLe, h1, h2, h]
        · right
          simp [charListLe, h1, h2, h]

theorem charListLe_trans : ∀ as bs cs : List Char,
    charListLe as bs = true → charListLe bs cs = true → charListLe as cs = true
  | [], _, _, _, _ => rfl
  | _ :: _, [], _, h, _ => by simp [charListLe] at h
  | _ :: _, _ :: _, [], _, h => by simp [charListLe] at h
  | a :: as, b :: bs, c :: cs, h1, h2 => by
    simp only [charListLe] at h1 h2 ⊢
    by_cases hab : a.toNat < b.toNat
    · by_cases hbc : b.toNat < c.toNat
      · have hac : a.toNat < c.toNat := Nat.lt_trans hab hbc
        simp [hac]
      · simp only [if_neg hbc] at h2
        by_cases hcb : c.toNat < b.toNat
        · simp [hcb] at h2
        · have hac : a.toNat < c.toNat := by omega
          simp [hac]
    · simp only [if_neg hab] at h1
      by_cases hba : b.toNat < a.toNat
      · simp [hba] at h1
      · simp only [if_neg hba] at h1
        by_cases hbc : b.toNat < c.toNat
        · have hac : a.toNat < c.toNat := by omega
          simp [hac]
        · simp only [if_neg hbc] at h2
          by_cases hcb : c.toNat < b.toNat
          · simp [hcb] at h2
          · simp only [if_neg hcb] at h2
            have hac : ¬ a.toNat < c.toNat := by omega
            have hca : ¬ c.toNat < a.toNat := by omega
            simp only [if_neg hac, if_neg hca]
            exact charListLe_trans as bs cs h1 h2

theorem charListLe_antisymm : ∀ as bs : List Char,
    charListLe as bs = true → charListLe bs as = true → as = bs
  | [], [], _, _ => rfl
  | [], _ :: _, _, h => by simp [charListLe] at h
  | _ :: _, [], h, _ => by simp [charListLe] at h
  | a :: as, b :: bs, h1, h2 => by
    simp only [charListLe] at h1 h2
    by_cases hab : a.toNat < b.toNat
    · have hba : ¬ b.toNat < a.toNat := by omega
      simp [hba, hab] at h2
    · by_cases hba : b.toNat < a.toNat
      · simp [hab, hba] at h1
      · simp only [if_neg hab, if_neg hba] at h1 h2
        have hn : a.toNat = b.toNat := by omega
        have hchar : a = b := Char.eq_of_val_eq (UInt32.toNat.inj hn)
        rw [hchar, charListLe_antisymm as bs h1 h2]

instance strLeRel.total : IsTotal String strLeRel :=
  ⟨fun a b => charListLe_total a.data b.data⟩

instance strLeRel.trans : IsTrans String strLeRel :=
  ⟨fun a b c h1 h2 => charListLe_trans a.data b.data c.data h1 h2⟩

instance strLeRel.antisymm : IsAntisymm String strLeRel :=
  ⟨fun a b h1 h2 => by
    have h := charListLe_antisymm a.data b.data h1 h2
    cases a
    cases b
    exact congrArg String.mk h⟩

/-- Unfolding of `dictGet` on a non-empty dict. -/
theorem dictGet_cons {α : Type} (x : String × α) (l : List (String × α)) (k : String) :
    dictGet (x :: l) k = if (x.1 == k) = true then some x.2 else dictGet l k := by
  by_cases hx : (x.1 == k) = true
  · simp [dictGet, List.find?_cons, hx]
  · simp [dictGet, List.find?_cons, hx]

/-- Lookup in a dict is insensitive to insertion order when the keys are
distinct. -/
theorem dictGet_perm {α : Type} {p1 p2 : List (String × α)} (h : List.Perm p1 p2)
    (hnd : (p1.map Prod.fst).Nodup) (k : String) : dictGet p1 k = dictGet p2 k := by
  induction h with
  | nil => rfl
  | cons x h ih =>
    simp only [List.map_cons, List.nodup_cons] at hnd
    rw [dictGet_cons, dictGet_cons]
    by_cases hx : (x.1 == k) = true
    · rw [if_pos hx, if_pos hx]
    · rw [if_neg hx, if_neg hx, ih hnd.2]
  | swap x y l =>
    simp only [List.map_cons, List.nodup_cons, List.mem_cons] at hnd
    have hxy : y.1 ≠ x.1 := fun hc => hnd.1 (Or.inl hc)
    rw [dictGet_cons, dictGet_cons, dictGet_cons, dictGet_cons]
    by_cases hy : (y.1 == k) = true
    · have hx : ¬ (x.1 == k) = true := by
        intro hc
        exact hxy ((beq_iff_eq.mp hy).trans (beq_iff_eq.mp hc).symm)
      rw [if_pos hy, if_neg hx, if_pos hy]
    · by_cases hx : (x.1 == k) = true
      · rw [if_neg hy, if_pos hx, if_pos hx]
      · rw [if_neg hy, if_neg hx, if_neg hx, if_neg hy]
  | trans h1 h2 ih1 ih2 =>
    rw [ih1 hnd, ih2 ((h1.map Prod.fst).nodup hnd)]

/-- Claim C7: the cache key is a deterministic function of the endpoint
path and the set of parameter pairs: two parameter mappings with the same
key-value pairs, in any insertion order, derive the same cache key
(the path plus the parameters sorted by key name joined as `key=value`
pairs). -/
theorem claim7_cache_key_insertion_order (url : String) (p1 p2 : Params)
    (hperm : List.Perm p1 p2) (hnd : (p1.map Prod.fst).Nodup) :
    cache_key url p1 = cache_key url p2 := by
  unfold cache_key
  by_cases h1 : p1.isEmpty = true
  · have h2 : p2.isEmpty = true := by
      rw [List.isEmpty_iff] at h1 ⊢
      subst h1
      exact hperm.symm.eq_nil
    rw [if_pos h1, if_pos h2]
  · have h2 : ¬ p2.isEmpty = true := by
      intro hc
      rw [List.isEmpty_iff] at hc
      subst hc
      exact h1 (by rw [List.isEmpty_iff, hperm.eq_nil])
    rw [if_neg h1, if_neg h2]
    dsimp only
    have hks : (p1.map Prod.fst).insertionSort strLeRel =
        (p2.map Prod.fst).insertionSort strLeRel := by
      refine List.eq_of_perm_of_sorted ?_ (List.sorted_insertionSort _ _)
        (List.sorted_insertionSort _ _)
      exact (List.perm_insertionSort _ _).trans
        ((hperm.map Prod.fst).trans (List.perm_insertionSort _ _).symm)
    rw [hks]
    have hparts : ((p2.map Prod.fst).insertionSort strLeRel).map (fun k =>
        k ++ "=" ++ (match dictGet p1 k with
          | some v => v.render
          | none => "")) =
      ((p2.map Prod.fst).insertionSort strLeRel).map (fun k =>
        k ++ "=" ++ (match dictGet p2 k with
          | some v => v.render
          | none => "")) := by
      refine List.map_congr_left (fun k _ => ?_)
      rw [dictGet_perm hperm hnd k]
    rw [hparts]

/-- Claim C7 (witness): the spec example, `id=5, lang=en` inserted in the
two possible orders, derives the same cache key. -/
theorem claim7_witness :
    cache_key ("drugproduct/") [("id", PVal.int 5), ("lang", PVal.str ("en"))] =
      cache_key ("drugproduct/") [("lang", PVal.str ("en")), ("id", PVal.int 5)] :=
  claim7_cache_key_insertion_order ("drugproduct/")
    [("id", PVal.int 5), ("lang", PVal.str ("en"))]
    [("lang", PVal.str ("en")), ("id", PVal.int 5)]
    (by decide) (by decide)

theorem netPost_evs (ttl : Int) (cache : Cache) (now : Int) (key : String)
    (ops : List Op) (run : List Ev × Option (Except CallErr Resp)) :
    (netPost ttl cache now key ops run).evs = run.1 := by
  rcases run with ⟨evs, r⟩
  rcases r with _ | r
  · rfl
  rcases r with e | r
  · rfl
  · by_cases h4 : 400 ≤ r.status ∧ r.status < 500
    · simp [netPost, h4]
    · rcases hj : r.json with _ | data
      · simp [netPost, h4, hj]
      · by_cases ht : ttl ≠ 0 <;> simp [netPost, h4, hj, ht]

theorem netPost_not_ok_cache (ttl : Int) (cache : Cache) (now : Int) (key : String)
    (ops : List Op) (run : List Ev × Option (Except CallErr Resp)) :
    (∀ e, (netPost ttl cache now key ops run).result = some (Except.error e) →
      (netPost ttl cache now key ops run).cache = cache)
    ∧ ((netPost ttl cache now key ops run).result = none →
      (netPost ttl cache now key ops run).cache = cache) := by
  rcases run with ⟨evs, r⟩
  rcases r with _ | r
  · exact ⟨fun e _ => rfl, fun _ => rfl⟩
  rcases r with e | r
  · exact ⟨fun e _ => rfl, fun _ => rfl⟩
  · by_cases h4 : 400 ≤ r.status ∧ r.status < 500
    · simp [netPost, h4]
    · rcases hj : r.json with _ | data
      · simp [netPost, h4, hj]
      · by_cases ht : ttl ≠ 0 <;> simp [netPost, h4, hj, ht]

theorem netPost_zero_ttl (cache : Cache) (now : Int) (key : String)
    (ops : List Op) (run : List Ev × Option (Except CallErr Resp)) :
    (netPost 0 cache now key ops run).cache = cache
    ∧ (netPost 0 cache now key ops run).ops = ops ++ [Op.request] := by
  rcases run with ⟨evs, r⟩
  rcases r with _ | r
  · exact ⟨rfl, rfl⟩
  rcases r with e | r
  · exact ⟨rfl, rfl⟩
  · by_cases h4 : 400 ≤ r.status ∧ r.status < 500
    · simp [netPost, h4]
    · rcases hj : r.json with _ | data
      · simp [netPost, h4, hj]
      · simp [netPost, h4, hj]

theorem netPost_4xx (ttl : Int) (cache : Cache) (now : Int) (key : String)
    (ops : List Op) (evs : List Ev) (r : Resp)
    (h4 : 400 ≤ r.status ∧ r.status < 500) :
    netPost ttl cache now key ops (evs, some (Except.ok r)) =
      GJOut.mk (ops ++ [Op.request]) evs
        (some (Except.error (CallErr.dpd (DPDErr.httpError (Int.ofNat r.status) r.body))))
        cache := by
  simp [netPost, h4]

theorem attemptResult_resp_ok (r : Resp) (h429 : r.status ≠ 429)
    (h5 : ¬ (500 ≤ r.status ∧ r.status < 600)) :
    attemptResult (Outcome.resp r) = Except.ok r := by
  have hc : (r.status == 429 || (500 ≤ r.status && r.status < 600)) = false := by
    simp only [Bool.or_eq_false_iff, beq_eq_false_iff_ne, ne_eq, Bool.and_eq_false_iff,
      decide_eq_false_iff_not]
    exact ⟨h429, by omega⟩
  simp [attemptResult, hc]

theorem sync_request_cons_ok (mr : Nat) (o : Outcome) (rest : List Outcome) (r : Resp)
    (h : attemptResult o = Except.ok r) :
    sync_request mr (o :: rest) = ([Ev.attempt], some (Except.ok r)) := by
  simp [sync_request, syncRequestGo, h, Except.mapError]

theorem async_request_cons_ok (mr : Nat) (o : Outcome) (rest : List Outcome) (r : Resp)
    (hmr : 1 ≤ mr) (h : attemptResult o = Except.ok r) :
    async_request mr (o :: rest) = ([Ev.attempt], some (Except.ok r)) := by
  have h0 : 0 < mr := hmr
  simp [async_request, asyncRequestGo, h, h0]

/-- Claim C9: the response normalizer sends `null` to the empty sequence,
a sequence to its dictionary-typed elements in original order (the result
is a sublist of the input consisting exactly of its dictionaries), a
single dictionary to a one-element sequence, and any other scalar to the
empty sequence. -/
theorem claim9_normalize_list_spec :
    normalize_list JVal.null = []
    ∧ (∀ xs, normalize_list (JVal.arr xs) = xs.filter JVal.isDict)
    ∧ (∀ xs, (normalize_list (JVal.arr xs)).Sublist xs)
    ∧ (∀ xs x, x ∈ normalize_list (JVal.arr xs) ↔ x ∈ xs ∧ JVal.isDict x = true)
    ∧ (∀ fs, normalize_list (JVal.obj fs) = [JVal.obj fs])
    ∧ (∀ b, normalize_list (JVal.bool b) = [])
    ∧ (∀ n, normalize_list (JVal.num n) = [])
    ∧ (∀ s, normalize_list (JVal.str s) = []) := by
  refine ⟨rfl, fun xs => rfl, fun xs => ?_, fun xs x => ?_, fun fs => rfl,
    fun b => rfl, fun n => rfl, fun s => rfl⟩
  · exact List.filter_sublist xs
  · exact List.mem_filter

/-- Claim C10: a per-call language override equal to the empty string is
treated like no override at all, because the resolution is the Python
truthiness expression `lang or default_lang`; the built parameters carry
the configured default language.  This holds for the shared base builder
and propagates to every endpoint builder that takes a language. -/
theorem claim10_empty_lang_override (d : String) :
    base_params d (some ("")) = base_params d none
    ∧ base_params d (some ("")) = [("type", PVal.str ("json")), ("lang", PVal.str d)]
    ∧ dictGet (base_params d (some (""))) ("lang") = some (PVal.str d)
    ∧ (∀ id, params_with_id_lang d id (some ("")) = params_with_id_lang d id none)
    ∧ (∀ id active, params_with_id_lang_active d id active (some ("")) =
        params_with_id_lang_active d id active none)
    ∧ (∀ id din bn st, params_drugproduct d id din bn st (some ("")) =
        params_drugproduct d id din bn st none)
    ∧ (∀ id name, params_activeingredient d id name (some ("")) =
        params_activeingredient d id name none) := by
  refine ⟨rfl, rfl, rfl, fun id => rfl, fun id active => rfl,
    fun id din bn st => ?_, fun id name => ?_⟩
  · simp [params_drugproduct, base_params, pyOrStr]
  · simp [params_activeingredient, base_params, pyOrStr]

/-- Claim C2 (code bug, non-blocking executor): with a budget of one
attempt and a single retryable connection failure, the async executor
performs a backoff sleep after the attempt that exhausts the retry budget
and only then surfaces the failure — its event trace ends in a sleep.
The blocking executor at the same input performs no sleep at all. -/
theorem claim2_async_sleeps_after_final_attempt :
    (async_request 1 [Outcome.exc TransportExc.connectError]).1 = [Ev.attempt, Ev.sleep]
    ∧ (async_request 1 [Outcome.exc TransportExc.connectError]).1.getLast? = some Ev.sleep
    ∧ (async_request 1 [Outcome.exc TransportExc.connectError]).2 =
        some (Except.error (CallErr.dpd (DPDErr.httpError (-1) ("ConnectError"))))
    ∧ (sync_request 1 [Outcome.exc TransportExc.connectError]).1 = [Ev.attempt]
    ∧ (sync_request 1 [Outcome.exc TransportExc.connectError]).2 =
        some (Except.error (CallErr.dpd (DPDErr.httpError (-1) ("ConnectError")))) := by
  exact ⟨rfl, rfl, rfl, rfl, rfl⟩

/-- Claim C1 (counterexample): the drug-product filter `id = 0` is
supplied, and it is the only supplied filter; the claim asserts the call
then raises no invalid-parameter error, but the code validates with
Python truthiness (`any([id, din, brandname, status])`), for which `0` is
falsy, and raises the invalid-parameter error. -/
theorem claim1_counterexample :
    (some (0 : Int)).isSome = true
    ∧ params_drugproduct ("en") (some 0) none none none none =
        Except.error DPDErr.invalidParam := by
  exact ⟨rfl, rfl⟩

/-- Claim C1 (amended): a drug-product call fails with the
invalid-parameter error exactly when all four filters are Python-falsy
(absent, the integer zero, or an empty string); an active-ingredient call
fails exactly when both its filters are absent; in either case, when no
error is raised every supplied (non-`None`) filter appears verbatim among
the query parameters.  The error is raised by the pure parameter builder,
which the client calls before handing anything to the transport, so no
network activity precedes it. -/
theorem claim1_amended (dl : String) (id : Option Int)
    (din brandname status name lang : Option String) :
    (params_drugproduct dl id din brandname status lang = Except.error DPDErr.invalidParam ↔
      truthyInt id = false ∧ truthyStr din = false ∧ truthyStr brandname = false ∧
        truthyStr status = false)
    ∧ (∀ ps, params_drugproduct dl id din brandname status lang = Except.ok ps →
        (∀ v, id = some v → ("id", PVal.int v) ∈ ps)
        ∧ (∀ v, din = some v → ("din", PVal.str v) ∈ ps)
        ∧ (∀ v, brandname = some v → ("brandname", PVal.str v) ∈ ps)
        ∧ (∀ v, status = some v → ("status", PVal.str v) ∈ ps))
    ∧ (params_activeingredient dl id name lang = Except.error DPDErr.invalidParam ↔
        id = none ∧ name = none)
    ∧ (∀ ps, params_activeingredient dl id name lang = Except.ok ps →
        (∀ v, id = some v → ("id", PVal.int v) ∈ ps)
        ∧ (∀ v, name = some v → ("ingredientname", PVal.str v) ∈ ps)) := by
  refine ⟨?_, ?_, ?_, ?_⟩
  · unfold params_drugproduct
    by_cases h : (truthyInt id || truthyStr din || truthyStr brandname || truthyStr status) = true
    · rw [if_neg (by simp [h])]
      simp only [reduceCtorEq, false_iff, not_and]
      intro h1 h2 h3 h4
      rw [h1, h2, h3, h4] at h
      simp at h
    · simp only [Bool.not_eq_true, Bool.or_eq_false_iff] at h
      simp [h.1, h.2]
  · intro ps hps
    unfold params_drugproduct at hps
    split at hps
    · exact absurd hps (by simp)
    · injection hps with hps
      subst hps
      refine ⟨fun v hv => ?_, fun v hv => ?_, fun v hv => ?_, fun v hv => ?_⟩ <;>
        subst hv <;> simp [List.mem_append]
  · unfold params_activeingredient
    by_cases h : id = none ∧ name = none
    · simp [h]
    · simp [h]
  · intro ps hps
    unfold params_activeingredient at hps
    split at hps
    · exact absurd hps (by simp)
    · injection hps with hps
      subst hps
      refine ⟨fun v hv => ?_, fun v hv => ?_⟩ <;> subst hv <;> simp [List.mem_append]

/-- Claim C1 (witness): a drug-product call supplying only the DIN filter
succeeds and carries the DIN verbatim; an active-ingredient call with
neither filter fails with the invalid-parameter error. -/
theorem claim1_witness :
    ("din", PVal.str ("02247674")) ∈
      (base_params ("en") none ++ [("din", PVal.str ("02247674"))])
    ∧ params_activeingredient ("en") none none none = Except.error DPDErr.invalidParam := by
  constructor
  · exact ((claim1_amended ("en") none (some ("02247674")) none none none none).2.1
      (base_params ("en") none ++ [("din", PVal.str ("02247674"))]) rfl).2.1
      ("02247674") rfl
  · exact ((claim1_amended ("en") none none none none none none).2.2.1).mpr ⟨rfl, rfl⟩

/-- Claim C4: an attempt outcome is classified retryable exactly when it
is one of the four transport failures of the `Retryable` tuple or an HTTP
status error with status 429 or 5xx; and a response with any 4xx status
other than 429 terminates the call after a single attempt, with no retry
and no backoff, surfaced as an HTTP error carrying that status, in both
executors. -/
theorem claim4_retry_classification (ttl : Int) (now : Int) (mr : Nat)
    (url : String) (params : Params) (s : Nat) (body : String) (j : Option JVal)
    (rest : List Outcome)
    (h400 : 400 ≤ s) (h500 : s < 500) (h429 : s ≠ 429) (hmr : 1 ≤ mr) :
    (∀ e : HTTPExc, is_retryable_exception e = true ↔
      (e = HTTPExc.transport TransportExc.connectError ∨
       e = HTTPExc.transport TransportExc.readError ∨
       e = HTTPExc.transport TransportExc.remoteProtocolError ∨
       e = HTTPExc.transport TransportExc.poolTimeout ∨
       ∃ s2 b2, e = HTTPExc.statusError s2 b2 ∧ (s2 = 429 ∨ (500 ≤ s2 ∧ s2 < 600))))
    ∧ (sync_get_json ttl [] now mr url params (Outcome.resp (Resp.mk s body j) :: rest)).result
        = some (Except.error (CallErr.dpd (DPDErr.httpError (Int.ofNat s) body)))
    ∧ (sync_get_json ttl [] now mr url params (Outcome.resp (Resp.mk s body j) :: rest)).evs
        = [Ev.attempt]
    ∧ (sync_get_json ttl [] now mr url params (Outcome.resp (Resp.mk s body j) :: rest)).cache
        = []
    ∧ (async_get_json ttl [] now mr url params (Outcome.resp (Resp.mk s body j) :: rest)).result
        = some (Except.error (CallErr.dpd (DPDErr.httpError (Int.ofNat s) body)))
    ∧ (async_get_json ttl [] now mr url params (Outcome.resp (Resp.mk s body j) :: rest)).evs
        = [Ev.attempt] := by
  have hok : attemptResult (Outcome.resp (Resp.mk s body j)) = Except.ok (Resp.mk s body j) :=
    attemptResult_resp_ok _ h429 (by dsimp only; omega)
  have hs := sync_request_cons_ok mr _ rest _ hok
  have ha := async_request_cons_ok mr _ rest _ hmr hok
  have h4 : 400 ≤ (Resp.mk s body j).status ∧ (Resp.mk s body j).status < 500 := ⟨h400, h500⟩
  refine ⟨?_, ?_⟩
  · intro e
    cases e with
    | transport te => cases te <;> simp [is_retryable_exception]
    | statusError s2 b2 => simp [is_retryable_exception]
  · rw [sync_get_json_eq, async_get_json_eq,
      show dictGet ([] : Cache) (cache_key url params) = none from rfl]
    by_cases ht : ttl ≠ 0
    · rw [if_pos ht, if_pos ht]
      dsimp only
      rw [hs, ha, netPost_4xx ttl [] now _ _ _ _ h4]
      exact ⟨rfl, rfl, rfl, rfl, rfl⟩
    · rw [if_neg ht, if_neg ht]
      rw [hs, ha, netPost_4xx ttl [] now _ _ _ _ h4]
      exact ⟨rfl, rfl, rfl, rfl, rfl⟩

/-- Claim C4 (witness): a single 404 response under budget 3 yields the
HTTP error with status 404 after exactly one attempt and no backoff. -/
theorem claim4_witness :
    (sync_get_json 0 [] 0 3 ("drugproduct/") []
      [Outcome.resp (Resp.mk 404 ("nf") none)]).result
      = some (Except.error (CallErr.dpd (DPDErr.httpError 404 ("nf"))))
    ∧ (sync_get_json 0 [] 0 3 ("drugproduct/") []
      [Outcome.resp (Resp.mk 404 ("nf") none)]).evs = [Ev.attempt] := by
  have h := claim4_retry_classification 0 0 3 ("drugproduct/") [] 404 ("nf") none []
    (by decide) (by decide) (by decide) (by decide)
  exact ⟨h.2.1, h.2.2.1⟩

/-- Claim C6 (counterexample): with caching disabled (TTL zero) the code
still computes the cache key first — the internal operation trace of a
call starts with the key computation and only then evaluates the TTL
check, refuting the claim that the disabled-TTL check happens before any
cache-key computation. -/
theorem claim6_counterexample :
    (sync_get_json 0 [] 0 3 ("drugproduct/") [] [Outcome.resp (Resp.mk 200 ("b") (some (JVal.obj [])))]).ops
      = [Op.computeKey, Op.ttlCheck, Op.request]
    ∧ (sync_get_json 0 [] 0 3 ("drugproduct/") [] [Outcome.resp (Resp.mk 200 ("b") (some (JVal.obj [])))]).ops.indexOf Op.computeKey
      < (sync_get_json 0 [] 0 3 ("drugproduct/") [] [Outcome.resp (Resp.mk 200 ("b") (some (JVal.obj [])))]).ops.indexOf Op.ttlCheck := by
  exact ⟨rfl, by decide⟩

/-- Claim C6 (amended): a TTL that is unset or zero collapses to the
disabled value `0`, and with it caching is disabled entirely: the cache
lookup is skipped (every call misses), the store is a no-op (the cache
mapping never changes), and every call issues a network request
regardless of repetition; however the cache key is computed
unconditionally, before the TTL check, not after it. -/
theorem claim6_ttl_disabled (cacheTtl : Option Int)
    (h : cacheTtl = none ∨ cacheTtl = some 0)
    (cache : Cache) (now : Int) (mr : Nat) (url : String) (params : Params)
    (outcomes : List Outcome) :
    effective_ttl cacheTtl = 0
    ∧ (sync_get_json 0 cache now mr url params outcomes).cache = cache
    ∧ (sync_get_json 0 cache now mr url params outcomes).ops =
        [Op.computeKey, Op.ttlCheck, Op.request]
    ∧ (async_get_json 0 cache now mr url params outcomes).cache = cache
    ∧ (async_get_json 0 cache now mr url params outcomes).ops =
        [Op.computeKey, Op.ttlCheck, Op.request] := by
  have ht : effective_ttl cacheTtl = 0 := by
    rcases h with h | h <;> subst h <;> rfl
  have hzs := netPost_zero_ttl cache now (cache_key url params)
    [Op.computeKey, Op.ttlCheck] (sync_request mr outcomes)
  have hza := netPost_zero_ttl cache now (cache_key url params)
    [Op.computeKey, Op.ttlCheck] (async_request mr outcomes)
  rw [sync_get_json_eq, async_get_json_eq]
  simp only [ne_eq, not_true_eq_false, if_false, reduceIte]
  exact ⟨ht, hzs.1, hzs.2, hza.1, hza.2⟩

/-- Claim C6 (witness): at a concrete disabled-TTL repetition the cache
stays empty and the request is issued each time. -/
theorem claim6_witness :
    (sync_get_json 0 [] 0 3 ("status/") [] [Outcome.resp (Resp.mk 200 ("b") (some JVal.null))]).cache = []
    ∧ (sync_get_json 0 [] 0 3 ("status/") [] [Outcome.resp (Resp.mk 200 ("b") (some JVal.null))]).ops =
        [Op.computeKey, Op.ttlCheck, Op.request] := by
  have h := claim6_ttl_disabled none (Or.inl rfl) [] 0 3 ("status/") []
    [Outcome.resp (Resp.mk 200 ("b") (some JVal.null))]
  exact ⟨h.2.1, h.2.2.1⟩

/-- Claim C8: only successfully decoded payloads are ever stored: on every
execution path of either `get_json` whose result is a failure (or whose
outcome trace is underdetermined), the cache mapping afterwards equals the
cache mapping before. -/
theorem claim8_failures_never_cached (ttl : Int) (cache : Cache) (now : Int) (mr : Nat)
    (url : String) (params : Params) (outcomes : List Outcome) :
    (∀ e, (sync_get_json ttl cache now mr url params outcomes).result =
        some (Except.error e) →
      (sync_get_json ttl cache now mr url params outcomes).cache = cache)
    ∧ ((sync_get_json ttl cache now mr url params outcomes).result = none →
      (sync_get_json ttl cache now mr url params outcomes).cache = cache)
    ∧ (∀ e, (async_get_json ttl cache now mr url params outcomes).result =
        some (Except.error e) →
      (async_get_json ttl cache now mr url params outcomes).cache = cache)
    ∧ ((async_get_json ttl cache now mr url params outcomes).result = none →
      (async_get_json ttl cache now mr url params outcomes).cache = cache) := by
  have hns := netPost_not_ok_cache ttl cache now (cache_key url params)
    [Op.computeKey, Op.ttlCheck, Op.cacheLookup] (sync_request mr outcomes)
  have hns2 := netPost_not_ok_cache ttl cache now (cache_key url params)
    [Op.computeKey, Op.ttlCheck] (sync_request mr outcomes)
  have hna := netPost_not_ok_cache ttl cache now (cache_key url params)
    [Op.computeKey, Op.ttlCheck, Op.cacheLookup] (async_request mr outcomes)
  have hna2 := netPost_not_ok_cache ttl cache now (cache_key url params)
    [Op.computeKey, Op.ttlCheck] (async_request mr outcomes)
  rw [sync_get_json_eq, async_get_json_eq]
  by_cases ht : ttl ≠ 0
  · rw [if_pos ht, if_pos ht]
    rcases hd : dictGet cache (cache_key url params) with _ | hit
    · exact ⟨hns.1, hns.2, hna.1, hna.2⟩
    · dsimp only
      by_cases hfresh : hit.1 ≥ now
      · rw [if_pos hfresh, if_pos hfresh]
        exact ⟨fun e hc => by simp at hc, fun hc => by simp at hc,
          fun e hc => by simp at hc, fun hc => by simp at hc⟩
      · rw [if_neg hfresh, if_neg hfresh]
        exact ⟨hns.1, hns.2, hna.1, hna.2⟩
  · rw [if_neg ht, if_neg ht]
    exact ⟨hns2.1, hns2.2, hna2.1, hna2.2⟩

/-- Claim C8 (witness): a 404 call leaves a concrete non-empty cache
untouched. -/
theorem claim8_witness :
    (sync_get_json 60 [("k", (5, JVal.null))] 0 3 ("drugproduct/") []
      [Outcome.resp (Resp.mk 404 ("nf") none)]).cache = [("k", (5, JVal.null))] := by
  refine (claim8_failures_never_cached 60 [("k", (5, JVal.null))] 0 3 ("drugproduct/") []
    [Outcome.resp (Resp.mk 404 ("nf") none)]).1
    (CallErr.dpd (DPDErr.httpError 404 ("nf"))) ?_
  rfl

theorem failing_attempt (o : Outcome) (h : failingOutcome o = true) :
    attemptResult o = Except.error (outcomeExc o)
    ∧ is_retryable_exception (outcomeExc o) = true := by
  cases o with
  | exc e => exact ⟨rfl, h⟩
  | resp r =>
    by_cases hc : (r.status == 429 || (500 ≤ r.status && r.status < 600)) = true
    · refine ⟨by simp [attemptResult, outcomeExc, hc], ?_⟩
      simpa [is_retryable_exception, outcomeExc] using hc
    · simp [failingOutcome, attemptResult, hc] at h

theorem asyncGo_stop (mr : Nat) (le : Option HTTPExc) (attempts : Nat)
    (outs : List Outcome) (h : ¬ attempts < mr) :
    asyncRequestGo mr le attempts outs = asyncRequestExit le := by
  cases outs <;> simp [asyncRequestGo, h]

theorem retryable_caught (e : HTTPExc) (h : is_retryable_exception e = true) :
    asyncCatches e = true := by
  cases e with
  | transport te =>
    cases te <;> first
      | rfl
      | simp [is_retryable_exception] at h
  | statusError s b => rfl

theorem benign_attempt (o : Outcome) (hb : benignOutcome o = true) (e : HTTPExc)
    (he : attemptResult o = Except.error e) :
    is_retryable_exception e = true ∧ asyncCatches e = true := by
  cases o with
  | resp r =>
    by_cases hc : (r.status == 429 || (500 ≤ r.status && r.status < 600)) = true
    · simp only [attemptResult, hc, if_true, Except.error.injEq, reduceIte] at he
      subst he
      exact ⟨by simpa [is_retryable_exception] using hc, rfl⟩
    · simp [attemptResult, hc] at he
  | exc te =>
    simp only [attemptResult, Except.error.injEq] at he
    subst he
    cases te <;> first
      | exact ⟨rfl, rfl⟩
      | simp [benignOutcome] at hb

theorem requestGo_equiv : ∀ (outcomes : List Outcome) (mr n : Nat) (le : Option HTTPExc),
    1 ≤ n → n ≤ mr → (∀ o ∈ outcomes, benignOutcome o = true) →
    (asyncRequestGo mr le (n - 1) outcomes).2 =
      (syncRequestGo mr n outcomes).2.map
        (Except.mapError (fun e => CallErr.dpd (excToDPDError e)))
    ∧ (asyncRequestGo mr le (n - 1) outcomes).1.count Ev.attempt =
      (syncRequestGo mr n outcomes).1.count Ev.attempt
  | [], mr, n, le, h1, hn, _ => by
    have hlt : n - 1 < mr := by omega
    simp [syncRequestGo, asyncRequestGo, hlt]
  | o :: rest, mr, n, le, h1, hn, hb => by
    have hlt : n - 1 < mr := by omega
    rcases ha : attemptResult o with e | r
    · obtain ⟨hr, hc⟩ := benign_attempt o (hb o (by simp)) e ha
      by_cases hstop : mr ≤ n
      · have hn1 : ¬ (n - 1) + 1 < mr := by omega
        simp only [syncRequestGo, asyncRequestGo, ha, hr, hc, if_pos hstop, if_pos hlt,
          if_true, reduceIte]
        rw [asyncGo_stop mr (some e) ((n - 1) + 1) rest hn1]
        exact ⟨rfl, rfl⟩
      · have hsucc : (n - 1) + 1 = (n + 1) - 1 := by omega
        have ih := requestGo_equiv rest mr (n + 1) (some e) (by omega) (by omega)
          (fun x hx => hb x (by simp [hx]))
        simp only [syncRequestGo, asyncRequestGo, ha, hr, hc, if_neg hstop, if_pos hlt,
          if_true, reduceIte]
        rw [hsucc]
        refine ⟨ih.1, ?_⟩
        simp only [List.count_cons]
        rw [ih.2]
    · simp [syncRequestGo, asyncRequestGo, ha, hlt, Except.mapError]

/-- With at least one attempt available and no outcome raising an
exception outside the retryable set, the two request phases agree on the
final result and on the number of attempts consumed. -/
theorem request_equiv (mr : Nat) (outcomes : List Outcome) (hmr : 1 ≤ mr)
    (hb : ∀ o ∈ outcomes, benignOutcome o = true) :
    (async_request mr outcomes).2 = (sync_request mr outcomes).2
    ∧ (async_request mr outcomes).1.count Ev.attempt =
      (sync_request mr outcomes).1.count Ev.attempt := by
  have h := requestGo_equiv outcomes mr 1 none (le_refl 1) hmr hb
  exact ⟨h.1, h.2⟩

theorem netPost_congr (ttl : Int) (cache : Cache) (now : Int) (key : String)
    (ops : List Op) (evs1 evs2 : List Ev) (r : Option (Except CallErr Resp)) :
    (netPost ttl cache now key ops (evs1, r)).result =
      (netPost ttl cache now key ops (evs2, r)).result
    ∧ (netPost ttl cache now key ops (evs1, r)).cache =
      (netPost ttl cache now key ops (evs2, r)).cache
    ∧ (netPost ttl cache now key ops (evs1, r)).ops =
      (netPost ttl cache now key ops (evs2, r)).ops := by
  rcases r with _ | r
  · exact ⟨rfl, rfl, rfl⟩
  rcases r with e | r
  · exact ⟨rfl, rfl, rfl⟩
  · by_cases h4 : 400 ≤ r.status ∧ r.status < 500
    · simp [netPost, h4]
    · rcases hj : r.json with _ | data
      · simp [netPost, h4, hj]
      · by_cases ht : ttl ≠ 0 <;> simp [netPost, h4, hj, ht]

theorem syncGo_exhaust : ∀ (pre : List Outcome) (n mr : Nat) (last : Outcome)
    (rest : List Outcome), n + pre.length = mr →
    (∀ o ∈ pre, failingOutcome o = true) → failingOutcome last = true →
    (syncRequestGo mr n (pre ++ last :: rest)).2 = some (Except.error (outcomeExc last))
    ∧ (syncRequestGo mr n (pre ++ last :: rest)).1.count Ev.attempt = pre.length + 1
  | [], n, mr, last, rest, hmr, _, hlast => by
    obtain ⟨ha, hr⟩ := failing_attempt last hlast
    simp only [List.nil_append, List.length_nil, Nat.add_zero] at hmr ⊢
    simp only [syncRequestGo, ha, hr, if_true]
    rw [if_pos (by omega)]
    exact ⟨rfl, rfl⟩
  | p :: pre, n, mr, last, rest, hmr, hpre, hlast => by
    obtain ⟨ha, hr⟩ := failing_attempt p (hpre p (by simp))
    simp only [List.length_cons] at hmr
    have ih := syncGo_exhaust pre (n + 1) mr last rest (by omega)
      (fun o ho => hpre o (by simp [ho])) hlast
    simp only [List.cons_append, syncRequestGo, ha, hr, if_true]
    rw [if_neg (by omega)]
    refine ⟨ih.1, ?_⟩
    simp only [List.count_cons, List.append_eq, List.length_cons]
    rw [ih.2]
    simp

theorem asyncGo_exhaust : ∀ (pre : List Outcome) (k mr : Nat) (le : Option HTTPExc)
    (last : Outcome) (rest : List Outcome), k + pre.length + 1 = mr →
    (∀ o ∈ pre, failingOutcome o = true) → failingOutcome last = true →
    (asyncRequestGo mr le k (pre ++ last :: rest)).2 =
      some (Except.error (CallErr.dpd (excToDPDError (outcomeExc last))))
    ∧ (asyncRequestGo mr le k (pre ++ last :: rest)).1.count Ev.attempt = pre.length + 1
  | [], k, mr, le, last, rest, hmr, _, hlast => by
    obtain ⟨ha, hr⟩ := failing_attempt last hlast
    have hcaught := retryable_caught _ hr
    simp only [List.nil_append, List.length_nil, Nat.add_zero] at hmr ⊢
    simp only [asyncRequestGo, ha, hcaught, if_true]
    rw [if_pos (by omega), asyncGo_stop mr (some (outcomeExc last)) (k + 1) rest (by omega)]
    exact ⟨rfl, rfl⟩
  | p :: pre, k, mr, le, last, rest, hmr, hpre, hlast => by
    obtain ⟨ha, hr⟩ := failing_attempt p (hpre p (by simp))
    have hcaught := retryable_caught _ hr
    simp only [List.length_cons] at hmr
    have ih := asyncGo_exhaust pre (k + 1) mr (some (outcomeExc p)) last rest (by omega)
      (fun o ho => hpre o (by simp [ho])) hlast
    simp only [List.cons_append, asyncRequestGo, ha, hcaught, if_true]
    rw [if_pos (by omega)]
    refine ⟨ih.1, ?_⟩
    simp only [List.count_cons, List.append_eq, List.length_cons]
    rw [ih.2]
    simp

/-- Claim C5: under a budget of 3, the trace `[500, 502, 200-with-valid-
json]` yields the decoded 200 payload after exactly 3 attempts in both
executors; and in general, when every attempt in the budget fails with a
retryable failure, both executors surface the last observed failure — as
an HTTP error carrying its status when it was status-based, otherwise as
the generic transport error with sentinel status `-1` (this is exactly
`excToDPDError` of the last failing outcome). -/
theorem claim5_retry_sequence_and_exhaustion (mr : Nat) (pre : List Outcome)
    (last : Outcome) (rest : List Outcome)
    (hmr : pre.length + 1 = mr)
    (hpre : ∀ o ∈ pre, failingOutcome o = true) (hlast : failingOutcome last = true) :
    ((sync_get_json 0 [] 0 3 ("drugproduct/") []
        [Outcome.resp (Resp.mk 500 ("ise") none), Outcome.resp (Resp.mk 502 ("bg") none),
         Outcome.resp (Resp.mk 200 ("ok") (some (JVal.obj [("k", JVal.num 1)])))]).result
      = some (Except.ok (JVal.obj [("k", JVal.num 1)]))
    ∧ (sync_get_json 0 [] 0 3 ("drugproduct/") []
        [Outcome.resp (Resp.mk 500 ("ise") none), Outcome.resp (Resp.mk 502 ("bg") none),
         Outcome.resp (Resp.mk 200 ("ok") (some (JVal.obj [("k", JVal.num 1)])))]).evs.count
        Ev.attempt = 3
    ∧ (async_get_json 0 [] 0 3 ("drugproduct/") []
        [Outcome.resp (Resp.mk 500 ("ise") none), Outcome.resp (Resp.mk 502 ("bg") none),
         Outcome.resp (Resp.mk 200 ("ok") (some (JVal.obj [("k", JVal.num 1)])))]).result
      = some (Except.ok (JVal.obj [("k", JVal.num 1)]))
    ∧ (async_get_json 0 [] 0 3 ("drugproduct/") []
        [Outcome.resp (Resp.mk 500 ("ise") none), Outcome.resp (Resp.mk 502 ("bg") none),
         Outcome.resp (Resp.mk 200 ("ok") (some (JVal.obj [("k", JVal.num 1)])))]).evs.count
        Ev.attempt = 3)
    ∧ ((sync_request mr (pre ++ last :: rest)).2 =
        some (Except.error (CallErr.dpd (excToDPDError (outcomeExc last))))
    ∧ (sync_request mr (pre ++ last :: rest)).1.count Ev.attempt = mr
    ∧ (async_request mr (pre ++ last :: rest)).2 =
        some (Except.error (CallErr.dpd (excToDPDError (outcomeExc last))))
    ∧ (async_request mr (pre ++ last :: rest)).1.count Ev.attempt = mr) := by
  have hsync := syncGo_exhaust pre 1 mr last rest (by omega) hpre hlast
  have hasync := asyncGo_exhaust pre 0 mr none last rest (by omega) hpre hlast
  refine ⟨⟨rfl, rfl, rfl, rfl⟩, ?_, ?_, ?_, ?_⟩
  · show ((syncRequestGo mr 1 (pre ++ last :: rest)).2.map
      (Except.mapError (fun e => CallErr.dpd (excToDPDError e)))) = _
    rw [hsync.1]
    rfl
  · show (syncRequestGo mr 1 (pre ++ last :: rest)).1.count Ev.attempt = mr
    rw [hsync.2]
    omega
  · exact hasync.1
  · rw [show (async_request mr (pre ++ last :: rest)).1.count Ev.attempt =
      (asyncRequestGo mr none 0 (pre ++ last :: rest)).1.count Ev.attempt from rfl, hasync.2]
    omega

/-- Claim C3 (counterexample): at a transport exception outside the
retryable set (for example `httpx.ReadTimeout`), the two executors
disagree on the surfaced error type: the blocking executor wraps it into
the typed HTTP error with sentinel status `-1`, while the non-blocking
executor lets the raw exception escape unwrapped, so the results differ
at the same endpoint, budget and outcome sequence. -/
theorem claim3_counterexample :
    (sync_get_json 0 [] 0 3 ("drugproduct/") []
        [Outcome.exc (TransportExc.other ("ReadTimeout"))]).result
      = some (Except.error (CallErr.dpd (DPDErr.httpError (-1) ("ReadTimeout"))))
    ∧ (async_get_json 0 [] 0 3 ("drugproduct/") []
        [Outcome.exc (TransportExc.other ("ReadTimeout"))]).result
      = some (Except.error (CallErr.raw (HTTPExc.transport (TransportExc.other ("ReadTimeout")))))
    ∧ (sync_get_json 0 [] 0 3 ("drugproduct/") []
        [Outcome.exc (TransportExc.other ("ReadTimeout"))]).result
      ≠ (async_get_json 0 [] 0 3 ("drugproduct/") []
        [Outcome.exc (TransportExc.other ("ReadTimeout"))]).result := by
  refine ⟨rfl, rfl, ?_⟩
  show some (Except.error (CallErr.dpd (DPDErr.httpError (-1) ("ReadTimeout"))))
    ≠ some (Except.error (CallErr.raw (HTTPExc.transport (TransportExc.other ("ReadTimeout")))))
  simp

/-- Claim C3 (amended): when the retry budget is at least one and no
attempt raises a transport exception outside the retryable set, the
blocking and the non-blocking `get_json` agree on everything but the
waiting: same result (payload or typed error), same final cache, same
internal operation order, and the same number of attempts consumed.  The
equivalence genuinely fails outside this hypothesis: a non-retryable
transport exception is wrapped as the sentinel HTTP error by the blocking
path but escapes raw from the non-blocking path, and a budget of zero
makes the non-blocking loop exit without attempting. -/
theorem claim3_sync_async_equiv (ttl : Int) (cache : Cache) (now : Int) (mr : Nat)
    (url : String) (params : Params) (outcomes : List Outcome)
    (hmr : 1 ≤ mr) (hb : ∀ o ∈ outcomes, benignOutcome o = true) :
    (async_get_json ttl cache now mr url params outcomes).result =
      (sync_get_json ttl cache now mr url params outcomes).result
    ∧ (async_get_json ttl cache now mr url params outcomes).cache =
      (sync_get_json ttl cache now mr url params outcomes).cache
    ∧ (async_get_json ttl cache now mr url params outcomes).ops =
      (sync_get_json ttl cache now mr url params outcomes).ops
    ∧ (async_get_json ttl cache now mr url params outcomes).evs.count Ev.attempt =
      (sync_get_json ttl cache now mr url params outcomes).evs.count Ev.attempt := by
  obtain ⟨hres, hcnt⟩ := request_equiv mr outcomes hmr hb
  have hnet : ∀ ops, ((netPost ttl cache now (cache_key url params) ops
        (async_request mr outcomes)).result =
      (netPost ttl cache now (cache_key url params) ops
        (sync_request mr outcomes)).result)
    ∧ ((netPost ttl cache now (cache_key url params) ops
        (async_request mr outcomes)).cache =
      (netPost ttl cache now (cache_key url params) ops
        (sync_request mr outcomes)).cache)
    ∧ ((netPost ttl cache now (cache_key url params) ops
        (async_request mr outcomes)).ops =
      (netPost ttl cache now (cache_key url params) ops
        (sync_request mr outcomes)).ops)
    ∧ ((netPost ttl cache now (cache_key url params) ops
        (async_request mr outcomes)).evs.count Ev.attempt =
      (netPost ttl cache now (cache_key url params) ops
        (sync_request mr outcomes)).evs.count Ev.attempt) := by
    intro ops
    have ha : async_request mr outcomes =
        ((async_request mr outcomes).1, (sync_request mr outcomes).2) := by
      rw [← hres]
    have hcg := netPost_congr ttl cache now (cache_key url params) ops
      (async_request mr outcomes).1 (sync_request mr outcomes).1
      (sync_request mr outcomes).2
    rw [ha]
    refine ⟨hcg.1, hcg.2.1, hcg.2.2, ?_⟩
    rw [netPost_evs, netPost_evs]
    exact hcnt
  rw [sync_get_json_eq, async_get_json_eq]
  by_cases ht : ttl ≠ 0
  · rw [if_pos ht, if_pos ht]
    rcases hd : dictGet cache (cache_key url params) with _ | hit
    · exact hnet [Op.computeKey, Op.ttlCheck, Op.cacheLookup]
    · dsimp only
      by_cases hfresh : hit.1 ≥ now
      · rw [if_pos hfresh, if_pos hfresh]
        exact ⟨rfl, rfl, rfl, rfl⟩
      · rw [if_neg hfresh, if_neg hfresh]
        exact hnet [Op.computeKey, Op.ttlCheck, Op.cacheLookup]
  · rw [if_neg ht, if_neg ht]
    exact hnet [Op.computeKey, Op.ttlCheck]

/-- Claim C3 (witness): at budget 3 over the benign trace
`[500, 200-with-valid-json]` the two executors agree on the result. -/
theorem claim3_witness :
    (async_get_json 0 [] 0 3 ("company/") []
        [Outcome.resp (Resp.mk 500 ("ise") none),
         Outcome.resp (Resp.mk 200 ("ok") (some JVal.null))]).result =
      (sync_get_json 0 [] 0 3 ("company/") []
        [Outcome.resp (Resp.mk 500 ("ise") none),
         Outcome.resp (Resp.mk 200 ("ok") (some JVal.null))]).result :=
  (claim3_sync_async_equiv 0 [] 0 3 ("company/") []
    [Outcome.resp (Resp.mk 500 ("ise") none),
     Outcome.resp (Resp.mk 200 ("ok") (some JVal.null))]
    (by decide) (by decide)).1

/-- Claim C5 (witness): budget 2 exhausted by a read error and then a 503
response surfaces the HTTP error with status 503 after 2 attempts in both
executors. -/
theorem claim5_witness :
    (sync_request 2 [Outcome.exc TransportExc.readError,
        Outcome.resp (Resp.mk 503 ("sd") none)]).2 =
      some (Except.error (CallErr.dpd (DPDErr.httpError 503 ("sd"))))
    ∧ (async_request 2 [Outcome.exc TransportExc.readError,
        Outcome.resp (Resp.mk 503 ("sd") none)]).1.count Ev.attempt = 2 := by
  have h := claim5_retry_sequence_and_exhaustion 2 [Outcome.exc TransportExc.readError]
    (Outcome.resp (Resp.mk 503 ("sd") none)) [] (by decide) (by decide) (by decide)
  exact ⟨h.2.1, h.2.2.2.2⟩

end DPD
